import Mathlib

set_option maxRecDepth 100000

/-!
Verification of the RewritePro content-rewriting pipeline.

The repository consists of two near-duplicate Streamlit applications,
`src/streamlit_app.py` and `src/web_app.py`.  This file gives a shallow
embedding of the logic the specification talks about:

* `get_prompt` (prompt construction) of both files, with the prompt text
  transcribed verbatim from the Python f-strings;
* `rewrite_article` (the retry loop around the remote completion call),
  with the remote service and the random jitter modelled as oracles and
  the observable behaviour (result, number of calls, sleep durations)
  collected in a trace;
* `extract_text_from_url` (the fetcher), with the third-party article
  library modelled as an oracle that may raise;
* the per-URL pipeline loop (streamlit_app.py lines 204-216 and
  web_app.py lines 147-157, identical logic): sanitised filenames,
  archive entry contents and the success counter.

Machine reals (`time.sleep` durations, backoff, jitter) are modelled as
rationals; Python exceptions are modelled as `Except`/`Option` values.
-/

namespace RewritePro

/-- Python `str.strip()`: remove leading and trailing whitespace.
Modelled on the character list (ASCII whitespace, which covers every
string appearing in this development). -/
def pyStrip (s : String) : String :=
  ⟨((s.data.dropWhile Char.isWhitespace).reverse.dropWhile Char.isWhitespace).reverse⟩

/-- Python `str.split()` with no arguments: split on runs of whitespace,
dropping empty pieces (stated on the character list so that it computes
by structural recursion). -/
def pySplit (s : String) : List String :=
  ((s.data.splitOnP Char.isWhitespace).filter (· ≠ [])).map (fun l => ⟨l⟩)

/-- Outcome of one remote chat-completion call (`client.chat.completions.create`):
either the text content of the first choice, or a raised exception.  The
exception text is only ever logged by the callers, so it is not carried. -/
inductive CallResult where
  | ok (content : String)
  | err
deriving DecidableEq

/-- The article-extraction library (`newspaper.Article`: construction,
`download()`, `parse()`) is an oracle producing either the pair of the
(possibly missing) text and title, or a raised exception message. -/
def extract_text_from_url (net : String → Except String (Option String × Option String))
    (url : String) : Option (String × String) :=
  match net url with
  | .error _ => none
  | .ok (text?, title?) => some (text?.getD "", title?.getD "article")

end RewritePro

namespace StreamlitApp

open RewritePro

/-- The fixed rules block of `get_prompt` in streamlit_app.py: everything
of the `core` f-string before the interpolated `{text}`. -/
def corePre : String := "\nRewrite the following article in about 600–800 words (no less than 600), avoiding plagiarism. Follow the structure and instructions below carefully:\n\n1. Start with an interactive intro (use “Lykkers”, “Friends”, or “Readers” when appropriate).\n2. Be specific, vivid, and thematic—avoid vague writing.\n3. Use clear subheadings. Each paragraph must:\n   • Have a subtitle ≤3 words.\n   • Be ≤4 lines.\n   • Begin with <h3> and end with </h3>.\n4. Bold all important terms with <b> and </b>.\n5. Avoid first-person language.\n6. No grammatical errors or AI‑style phrasing.\n7. Follow E‑E‑A‑T principles.\n8. Ensure correct English punctuation.\n9. Prohibited topics: war, religion, alcohol, nudity, politics, pork, beef, LGBTQ+ references, bars/clubs, skin color.\n10. Last paragraph is a reflective, actionable conclusion.\n\nArticle:\n"

/-- The `core` f-string of streamlit_app.py's `get_prompt`: the rules
block with the document text interpolated before the closing newline. -/
def core (text : String) : String := corePre ++ text ++ "\n"

/-- The `extra` block for `article_type == "food"`. -/
def extraFood : String := "\nAdditional for Food:\n- Warm, sensory style: focus on taste, texture, aroma, presentation.\n- Include specific ingredients, techniques, local context.\n- Provide approximate ingredient costs, prep time, and tools.\n"

/-- The `extra` block for `article_type == "travel"`. -/
def extraTravel : String := "\nAdditional for Travel:\n- Vivid scene: places, activities, transport, local culture, exact locations.\n- Include budget tips: routes, times, costs, packing list.\n- Highlight hidden gems or local secrets.\n"

/-- The `extra` block for `article_type == "medical"`. -/
def extraMedical : String := "\nAdditional for Medical:\n- Professional tone, expert‑backed content.\n- Explain symptoms, diagnostic steps, treatments, when to seek care.\n- Reference authoritative terms (e.g., <b>CDC guidelines</b>, <b>clinical trials</b>).\n- Comply with YMYL: factual, no sensationalism.\n"

/-- The `extra` block for `article_type == "finance"`. -/
def extraFinance : String := "\nAdditional for Finance:\n- Clear actionable advice: managing debt, saving, investing basics.\n- Include figures: fees, rates, common pitfalls.\n- Tone may be professional or relatable.\n- Live examples: <b>credit score</b>, <b>loan interest</b>, <b>emergency fund</b>.\n"

/-- The `extra` block for `article_type == "general"`. -/
def extraGeneral : String := "\nAdditional for General:\n- Clear, relaxed tone with everyday examples.\n- Offer fresh perspective on lifestyle/knowledge topics.\n- Avoid clichés or overly broad statements.\n"

/-- The `ending` block of streamlit_app.py's `get_prompt`. -/
def ending : String := "\nFinally:\n- Provide a global title ≤28 characters (creative, engaging).\n- Provide a summary ≤20 words using rhetoric (suspense, exaggeration, question, reversal).\n"

/-- streamlit_app.py `get_prompt(text, article_type)` (lines 81-148):
`core + extra + ending`, where the document text sits inside `core`;
an unsupported `article_type` raises `ValueError("Invalid article_type")`. -/
def get_prompt (text article_type : String) : Except String String :=
  if article_type = "food" then .ok (core text ++ extraFood ++ ending)
  else if article_type = "travel" then .ok (core text ++ extraTravel ++ ending)
  else if article_type = "medical" then .ok (core text ++ extraMedical ++ ending)
  else if article_type = "finance" then .ok (core text ++ extraFinance ++ ending)
  else if article_type = "general" then .ok (core text ++ extraGeneral ++ ending)
  else .error "Invalid article_type"

/-- Observable behaviour of one execution of the retry loop in
`rewrite_article`: the returned value (`none` models Python `None`),
the number of remote calls issued, and the `time.sleep` durations in
order of occurrence. -/
structure RewriteTrace where
  result : Option String
  calls : Nat
  sleeps : List ℚ
deriving DecidableEq

/-- The `for attempt in range(1, 4)` loop of streamlit_app.py's
`rewrite_article` (lines 152-168), over the remaining attempt numbers.
On success it returns the stripped content; on an exception it sleeps
`backoff + random.random()*0.5` (the jitter oracle gives the value of
`random.random()*0.5` for each attempt) and doubles `backoff`. -/
def rewriteLoop (call : Nat → CallResult) (jitter : Nat → ℚ) :
    List Nat → ℚ → RewriteTrace
  | [], _ => ⟨none, 0, []⟩
  | a :: rest, backoff =>
    match call a with
    | .ok content => ⟨some (pyStrip content), 1, []⟩
    | .err =>
      let t := rewriteLoop call jitter rest (backoff * 2)
      ⟨t.result, t.calls + 1, (backoff + jitter a) :: t.sleeps⟩

/-- streamlit_app.py `rewrite_article(text, article_type)` (lines 150-168).
The remote service is an oracle from the prompt and the attempt number to
a `CallResult`.  A `ValueError` from `get_prompt` propagates (it is raised
before the loop); exceptions of the remote call never do. -/
def rewrite_article (call : String → Nat → CallResult) (jitter : Nat → ℚ)
    (text article_type : String) : Except String RewriteTrace :=
  match get_prompt text article_type with
  | .error e => .error e
  | .ok prompt => .ok (rewriteLoop (call prompt) jitter [1, 2, 3] 1)

end StreamlitApp

namespace WebApp

open RewritePro

/-- The travel prompt of web_app.py's `get_prompt`: everything before the
interpolated `{text}`. -/
def travelPre : String := "\n        Rewrite the following travel article in 800 words, avoiding plagiarism. Follow these strict guidelines:\n\n        1. Start with an interactive greeting (e.g., “Friends,” “Readers,” “Lykkers”).\n        2. Use <h3> for each section heading (max 3 words); begin the intro and end with a conclusion.\n        3. Each paragraph must be under 4 lines.\n        4. Highlight key terms (locations, concepts, etc.) with <b> and </b>.\n        5. Ensure specific, vivid detail: include costs, transportation, time info, etc.\n        6. Avoid first-person language and vague writing.\n        7. The content must reflect E-E-A-T.\n        8. Avoid inappropriate content: religion, war, politics, pork, beef, alcohol, nudity, etc.\n        9. Grammar must be native-level.\n        10. End with:\n            - A creative title (≤28 chars)\n            - A vivid summary (≤20 words)\n\n        Article:\n\n        "

/-- The food prompt of web_app.py's `get_prompt`: everything before the
interpolated `{text}`. -/
def foodPre : String := "\n        Rewrite the following food/recipe article in 800 words, avoiding plagiarism. Structure and format as follows:\n\n        1. Warm greeting (e.g., “Lykkers, ready for a tasty treat?”).\n        2. Use <h3> subheadings (e.g., <h3>Ingredients</h3>, <h3>Steps</h3>).\n        3. Each paragraph under 4 lines.\n        4. Highlight key terms with <b>.\n        5. For recipes, include:\n            - Exact ingredient list\n            - Step-by-step numbered instructions\n        6. Add value: flavor notes, tips, presentation, background.\n        7. Use clear, natural tone. No generic advice or first-person.\n        8. Avoid inappropriate topics.\n        9. End with:\n            - Catchy title (≤28 chars)\n            - Summary (≤20 words)\n\n        Article:\n\n        "

/-- The text following the interpolated `{text}` in both web_app.py
prompt f-strings (a newline plus the closing indentation). -/
def indentTail : String := "\n        "

/-- web_app.py `get_prompt(text, article_type)` (lines 50-96): only
`travel` and `food` are supported; anything else raises `ValueError`. -/
def get_prompt (text article_type : String) : Except String String :=
  if article_type = "travel" then .ok (travelPre ++ text ++ indentTail)
  else if article_type = "food" then .ok (foodPre ++ text ++ indentTail)
  else .error "Invalid article_type; choose \x27travel\x27 or \x27food\x27."

/-- Observable behaviour of one execution of web_app.py's retry loop:
the returned value, the number of remote calls, the sleep durations, and
the word counts for which a `logging.warning` was emitted. -/
structure WebTrace where
  result : Option String
  calls : Nat
  sleeps : List ℚ
  warned : List Nat
deriving DecidableEq

/-- The `for attempt in range(1, 4)` loop of web_app.py's
`rewrite_article` (lines 102-122).  On success the stripped content is
word-counted; a count outside 600-800 is logged as a warning, and the
content is returned either way. -/
def rewriteLoop (call : Nat → CallResult) (jitter : Nat → ℚ) :
    List Nat → ℚ → WebTrace
  | [], _ => ⟨none, 0, [], []⟩
  | a :: rest, backoff =>
    match call a with
    | .ok resp =>
      let content := pyStrip resp
      let word_count := (pySplit content).length
      if 600 ≤ word_count ∧ word_count ≤ 800 then ⟨some content, 1, [], []⟩
      else ⟨some content, 1, [], [word_count]⟩
    | .err =>
      let t := rewriteLoop call jitter rest (backoff * 2)
      ⟨t.result, t.calls + 1, (backoff + jitter a) :: t.sleeps, t.warned⟩

/-- web_app.py `rewrite_article(text, article_type)` (lines 99-122). -/
def rewrite_article (call : String → Nat → CallResult) (jitter : Nat → ℚ)
    (text article_type : String) : Except String WebTrace :=
  match get_prompt text article_type with
  | .error e => .error e
  | .ok prompt => .ok (rewriteLoop (call prompt) jitter [1, 2, 3] 1)

end WebApp

namespace RewritePro

/-- `"".join(c if c.isalnum() else "_" for c in title)`: every
non-alphanumeric character of the title is replaced by an underscore
(ASCII reading of `isalnum`, which covers the titles of this spec). -/
def sanitize (title : String) : String :=
  ⟨title.data.map (fun c => if c.isAlphanum then c else '_')⟩

/-- The sanitised title truncated to its first 50 characters
(`[:50]` in streamlit_app.py line 211 / web_app.py line 154). -/
def safeName (title : String) : String :=
  ⟨(sanitize title).data.take 50⟩

/-- Archive entry filename `f"{safe}_{idx}.txt"`. -/
def mkFilename (idx : Nat) (title : String) : String :=
  safeName title ++ "_" ++ toString idx ++ ".txt"

/-- Archive entry contents `f"// {title} //\nSource: {url}\n\n{rewritten}"`. -/
def mkContent (title url rewritten : String) : String :=
  "// " ++ title ++ " //\nSource: " ++ url ++ "\n\n" ++ rewritten

/-- One iteration of the pipeline loop (streamlit_app.py lines 204-215,
web_app.py lines 147-157) for the 1-based index `idx` and its URL:
the archive entry written for it, or `none` when the URL is skipped.
`fetch` abstracts `extract_text_from_url` (with `none` as the `(None,
None)` failure pair) and `rw` abstracts `rewrite_article` for the
category fixed by the run.  The `if not text` / `if not rewritten`
guards also skip empty strings, which are falsy in Python. -/
def processUrl (fetch : String → Option (String × String))
    (rw : String → Option String) (idx : Nat) (url : String) :
    Option (String × String) :=
  match fetch url with
  | none => none
  | some (text, title) =>
    if text = "" then none
    else
      match rw text with
      | none => none
      | some rewritten =>
        if rewritten = "" then none
        else some (mkFilename idx title, mkContent title url rewritten)

/-- The pipeline loop from index `idx` on: the archive entries written
(in order) and the final value of the success counter. -/
def pipelineGo (fetch : String → Option (String × String))
    (rw : String → Option String) :
    Nat → List String → List (String × String) × Nat
  | _, [] => ([], 0)
  | idx, url :: rest =>
    match processUrl fetch rw idx url with
    | none => pipelineGo fetch rw (idx + 1) rest
    | some entry =>
      let t := pipelineGo fetch rw (idx + 1) rest
      (entry :: t.1, t.2 + 1)

/-- The whole pipeline run over the URL list (`enumerate(urls, start=1)`). -/
def pipeline (fetch : String → Option (String × String))
    (rw : String → Option String) (urls : List String) :
    List (String × String) × Nat :=
  pipelineGo fetch rw 1 urls

/-- Observer for filename well-formedness: the decimal digits of the
index embedded in an archive entry filename (the maximal digit run that
precedes the trailing `.txt`). -/
def fileIdxDigits (s : String) : List Char :=
  ((s.data.reverse.drop 4).takeWhile Char.isDigit).reverse

end RewritePro

namespace RewritePro

/-! Helper lemmas: the decimal representation `toString : Nat → String`
used in archive filenames is injective, and consists of digit characters
only.  This is what makes index-qualified filenames collision-free. -/

theorem digitChar_isDigit {m : Nat} (h : m < 10) : (Nat.digitChar m).isDigit = true := by
  interval_cases m <;> decide

theorem digitChar_inj10 : ∀ a b : Fin 10, Nat.digitChar a.val = Nat.digitChar b.val → a = b := by
  decide

theorem toDigitsCore_acc (fuel : Nat) : ∀ (n : Nat) (ds : List Char),
    Nat.toDigitsCore 10 fuel n ds = Nat.toDigitsCore 10 fuel n [] ++ ds := by
  induction fuel with
  | zero => intro n ds; simp [Nat.toDigitsCore]
  | succ f ih =>
    intro n ds
    simp only [Nat.toDigitsCore]
    by_cases h : n / 10 = 0
    · simp [h]
    · simp only [h, if_false]
      rw [ih (n / 10) (Nat.digitChar (n % 10) :: ds), ih (n / 10) [Nat.digitChar (n % 10)]]
      simp

theorem toDigitsCore_fuel : ∀ (f1 f2 n : Nat) (ds : List Char), n < f1 → n < f2 →
    Nat.toDigitsCore 10 f1 n ds = Nat.toDigitsCore 10 f2 n ds := by
  intro f1
  induction f1 with
  | zero => intro f2 n ds h1 _; omega
  | succ f ih =>
    intro f2 n ds h1 h2
    cases f2 with
    | zero => omega
    | succ g =>
      simp only [Nat.toDigitsCore]
      by_cases h : n / 10 = 0
      · simp [h]
      · simp only [h, if_false]
        exact ih g (n / 10) _ (by omega) (by omega)

theorem toDigits_small {n : Nat} (h : n < 10) : Nat.toDigits 10 n = [Nat.digitChar n] := by
  have hd : n / 10 = 0 := by omega
  have hm : n % 10 = n := by omega
  simp [Nat.toDigits, Nat.toDigitsCore, hd, hm]

theorem toDigits_large {n : Nat} (h : 10 ≤ n) :
    Nat.toDigits 10 n = Nat.toDigits 10 (n / 10) ++ [Nat.digitChar (n % 10)] := by
  have hd : ¬ (n / 10 = 0) := by omega
  show Nat.toDigitsCore 10 (n + 1) n [] = _
  simp only [Nat.toDigitsCore, hd, if_false]
  rw [toDigitsCore_acc]
  rw [toDigitsCore_fuel n (n / 10 + 1) (n / 10) [] (by omega) (by omega)]
  rfl

theorem toDigits_length_pos (n : Nat) : 0 < (Nat.toDigits 10 n).length := by
  by_cases h : n < 10
  · rw [toDigits_small h]; simp
  · rw [toDigits_large (by omega)]; simp

theorem toDigits_all_digit (n : Nat) : ∀ c ∈ Nat.toDigits 10 n, c.isDigit = true := by
  induction n using Nat.strong_induction_on with
  | _ n ih =>
    by_cases h : n < 10
    · rw [toDigits_small h]
      intro c hc
      simp only [List.mem_singleton] at hc
      subst hc
      exact digitChar_isDigit h
    · rw [toDigits_large (by omega)]
      intro c hc
      rcases List.mem_append.mp hc with h1 | h2
      · exact ih (n / 10) (by omega) c h1
      · simp only [List.mem_singleton] at h2
        subst h2
        exact digitChar_isDigit (by omega)

theorem toDigits_inj : ∀ m n : Nat, Nat.toDigits 10 m = Nat.toDigits 10 n → m = n := by
  intro m
  induction m using Nat.strong_induction_on with
  | _ m ih =>
    intro n h
    by_cases hm : m < 10 <;> by_cases hn : n < 10
    · rw [toDigits_small hm, toDigits_small hn] at h
      simp only [List.cons.injEq, and_true] at h
      have := digitChar_inj10 ⟨m, hm⟩ ⟨n, hn⟩ h
      exact congrArg Fin.val this
    · rw [toDigits_small hm, toDigits_large (show 10 ≤ n by omega)] at h
      have hlen := congrArg List.length h
      simp only [List.length_singleton, List.length_append] at hlen
      have := toDigits_length_pos (n / 10)
      omega
    · rw [toDigits_large (show 10 ≤ m by omega), toDigits_small hn] at h
      have hlen := congrArg List.length h
      simp only [List.length_singleton, List.length_append] at hlen
      have := toDigits_length_pos (m / 10)
      omega
    · rw [toDigits_large (show 10 ≤ m by omega), toDigits_large (show 10 ≤ n by omega)] at h
      obtain ⟨h1, h2⟩ := List.append_inj' h rfl
      simp only [List.cons.injEq, and_true] at h2
      have hmod : m % 10 = n % 10 :=
        congrArg Fin.val (digitChar_inj10 ⟨m % 10, by omega⟩ ⟨n % 10, by omega⟩ h2)
      have hdiv : m / 10 = n / 10 := ih (m / 10) (by omega) (n / 10) h1
      omega

theorem toString_nat_data (n : Nat) : (toString n).data = Nat.toDigits 10 n := rfl

theorem toString_nat_data_inj {m n : Nat} (h : (toString m).data = (toString n).data) :
    m = n :=
  toDigits_inj m n (by rwa [toString_nat_data, toString_nat_data] at h)

theorem takeWhile_all_append (p : Char → Bool) (y : Char) (zs : List Char)
    (hy : p y = false) :
    ∀ xs : List Char, (∀ x ∈ xs, p x = true) →
      List.takeWhile p (xs ++ y :: zs) = xs := by
  intro xs
  induction xs with
  | nil => intro _; simp [List.takeWhile_cons, hy]
  | cons a as ih =>
    intro hx
    have ha : p a = true := hx a (List.mem_cons_self a as)
    simp only [List.cons_append, List.takeWhile_cons, ha, if_true]
    rw [ih (fun x hxm => hx x (List.mem_cons_of_mem a hxm))]

theorem fileIdxDigits_mkFilename (idx : Nat) (title : String) :
    fileIdxDigits (mkFilename idx title) = (toString idx).data := by
  unfold fileIdxDigits mkFilename
  rw [String.data_append, String.data_append, String.data_append]
  have h1 : ("_" : String).data = ['_'] := rfl
  have h4 : (".txt" : String).data = ['.', 't', 'x', 't'] := rfl
  rw [h1, h4]
  simp only [List.reverse_append, List.reverse_cons, List.reverse_nil, List.nil_append,
    List.append_assoc, List.cons_append]
  rw [show List.drop 4 ('t' :: 'x' :: 't' :: '.' ::
      ((toString idx).data.reverse ++ '_' :: (safeName title).data.reverse)) =
      ((toString idx).data.reverse ++ '_' :: (safeName title).data.reverse) from rfl]
  rw [takeWhile_all_append Char.isDigit '_' ((safeName title).data.reverse) (by decide)
    ((toString idx).data.reverse)
    (fun x hx => toDigits_all_digit idx x
      (by rw [← toString_nat_data]; exact (List.mem_reverse).mp hx))]
  exact List.reverse_reverse _

theorem mkFilename_inj_idx {i j : Nat} {ti tj : String}
    (h : mkFilename i ti = mkFilename j tj) : i = j := by
  have h2 := congrArg fileIdxDigits h
  rw [fileIdxDigits_mkFilename, fileIdxDigits_mkFilename] at h2
  exact toString_nat_data_inj h2

end RewritePro

namespace RewritePro

theorem processUrl_eq_some {fetch : String → Option (String × String)}
    {rw : String → Option String} {idx : Nat} {url : String} {e : String × String}
    (h : processUrl fetch rw idx url = some e) :
    ∃ title content, e = (mkFilename idx title, content) := by
  unfold processUrl at h
  cases hf : fetch url with
  | none => rw [hf] at h; exact absurd h (by simp)
  | some p =>
    obtain ⟨text, title⟩ := p
    rw [hf] at h
    by_cases ht : text = ""
    · simp [ht] at h
    · simp only [ht, if_false] at h
      cases hr : rw text with
      | none => rw [hr] at h; exact absurd h (by simp)
      | some rewritten =>
        rw [hr] at h
        by_cases hw : rewritten = ""
        · simp [hw] at h
        · simp only [hw, if_false, Option.some.injEq] at h
          exact ⟨title, mkContent title url rewritten, h.symm⟩

theorem pipelineGo_mem {fetch : String → Option (String × String)}
    {rw : String → Option String} :
    ∀ (us : List String) (i : Nat) (e : String × String),
      e ∈ (pipelineGo fetch rw i us).1 → ∃ j t, i ≤ j ∧ e.1 = mkFilename j t := by
  intro us
  induction us with
  | nil => intro i e he; simp [pipelineGo] at he
  | cons url rest ih =>
    intro i e he
    unfold pipelineGo at he
    cases hp : processUrl fetch rw i url with
    | none =>
      rw [hp] at he
      obtain ⟨j, t, hj, ht⟩ := ih (i + 1) e he
      exact ⟨j, t, by omega, ht⟩
    | some entry =>
      rw [hp] at he
      simp only [List.mem_cons] at he
      rcases he with rfl | hmem
      · obtain ⟨t, c, hc⟩ := processUrl_eq_some hp
        exact ⟨i, t, le_refl i, by rw [hc]⟩
      · obtain ⟨j, t, hj, ht⟩ := ih (i + 1) e hmem
        exact ⟨j, t, by omega, ht⟩

theorem pipelineGo_pairwise {fetch : String → Option (String × String)}
    {rw : String → Option String} :
    ∀ (us : List String) (i : Nat),
      (((pipelineGo fetch rw i us).1.map Prod.fst)).Pairwise (· ≠ ·) := by
  intro us
  induction us with
  | nil => intro i; simp [pipelineGo]
  | cons url rest ih =>
    intro i
    unfold pipelineGo
    cases hp : processUrl fetch rw i url with
    | none => exact ih (i + 1)
    | some entry =>
      simp only [List.map_cons]
      refine List.Pairwise.cons ?_ (ih (i + 1))
      intro b hb
      obtain ⟨e2, he2, hb2⟩ := List.mem_map.mp hb
      obtain ⟨j, t, hj, ht⟩ := pipelineGo_mem rest (i + 1) e2 he2
      obtain ⟨t0, c0, hc0⟩ := processUrl_eq_some hp
      rw [← hb2, hc0, ht]
      intro heq
      have := mkFilename_inj_idx heq
      omega

theorem pipelineGo_fetchfail (rw : String → Option String) :
    ∀ (us : List String) (i : Nat),
      pipelineGo (fun _ => none) rw i us = ([], 0) := by
  intro us
  induction us with
  | nil => intro i; rfl
  | cons url rest ih =>
    intro i
    show pipelineGo (fun _ => none) rw (i + 1) rest = ([], 0)
    exact ih (i + 1)

end RewritePro

namespace StreamlitApp

theorem stRewriteLoop_calls_le (call : Nat → RewritePro.CallResult) (jitter : Nat → ℚ) :
    ∀ (as : List Nat) (b : ℚ), (rewriteLoop call jitter as b).calls ≤ as.length := by
  intro as
  induction as with
  | nil => intro b; simp [rewriteLoop]
  | cons a rest ih =>
    intro b
    unfold rewriteLoop
    cases call a with
    | ok c => simp
    | err => simpa using Nat.succ_le_succ (ih (b * 2))

end StreamlitApp

namespace WebApp

theorem webRewriteLoop_calls_le (call : Nat → RewritePro.CallResult) (jitter : Nat → ℚ) :
    ∀ (as : List Nat) (b : ℚ), (rewriteLoop call jitter as b).calls ≤ as.length := by
  intro as
  induction as with
  | nil => intro b; simp [rewriteLoop]
  | cons a rest ih =>
    intro b
    unfold rewriteLoop
    cases call a with
    | ok c =>
      by_cases hw : 600 ≤ (RewritePro.pySplit (RewritePro.pyStrip c)).length ∧
          (RewritePro.pySplit (RewritePro.pyStrip c)).length ≤ 800 <;> simp [hw]
    | err => simpa using Nat.succ_le_succ (ih (b * 2))

end WebApp

/-- C1 (counterexample): the claim puts the literal document text last in
the assembled prompt.  In streamlit_app.py's `get_prompt` the document
text is interpolated inside `core`, before the category block and the
closing block: for the input text `"ZQXW"` and category `"food"`, the
returned prompt does not end with the document text. -/
theorem C1_counterexample :
    (StreamlitApp.get_prompt "ZQXW" "food").toOption.map
      (fun p => List.isSuffixOf "ZQXW".data p.data) = some false := by
  decide

/-- C1 (amended): for every supported category and input text the prompt
is the concatenation, in this order, of the fixed preamble of rules
ending with the `Article:` marker, then the literal document text and a
newline (together forming `core`), then the category-specific block,
then the closing block requesting a short title and summary — the
document text sits after the preamble and before the category block, not
last.  In web_app.py each supported category has a self-contained
instruction block followed by the document text and the closing
indentation. -/
theorem C1_amended : ∀ text : String,
    StreamlitApp.get_prompt text "food" =
      .ok ((StreamlitApp.corePre ++ text ++ "\n") ++ StreamlitApp.extraFood ++
        StreamlitApp.ending) ∧
    StreamlitApp.get_prompt text "travel" =
      .ok ((StreamlitApp.corePre ++ text ++ "\n") ++ StreamlitApp.extraTravel ++
        StreamlitApp.ending) ∧
    StreamlitApp.get_prompt text "medical" =
      .ok ((StreamlitApp.corePre ++ text ++ "\n") ++ StreamlitApp.extraMedical ++
        StreamlitApp.ending) ∧
    StreamlitApp.get_prompt text "finance" =
      .ok ((StreamlitApp.corePre ++ text ++ "\n") ++ StreamlitApp.extraFinance ++
        StreamlitApp.ending) ∧
    StreamlitApp.get_prompt text "general" =
      .ok ((StreamlitApp.corePre ++ text ++ "\n") ++ StreamlitApp.extraGeneral ++
        StreamlitApp.ending) ∧
    WebApp.get_prompt text "travel" =
      .ok (WebApp.travelPre ++ text ++ WebApp.indentTail) ∧
    WebApp.get_prompt text "food" =
      .ok (WebApp.foodPre ++ text ++ WebApp.indentTail) :=
  fun _ => ⟨rfl, rfl, rfl, rfl, rfl, rfl, rfl⟩

/-- C5 (counterexample): the claim says `get_prompt` fails for no value
inside `{food, travel, medical, finance, general}`, but web_app.py's
`get_prompt` (also cited by the claim) raises `ValueError` for
`"medical"`, a member of that set; streamlit_app.py's accepts it. -/
theorem C5_counterexample :
    (WebApp.get_prompt "x" "medical").toOption = none ∧
    (StreamlitApp.get_prompt "x" "medical").toOption.isSome = true := by
  constructor
  · rfl
  · decide

/-- C5 (amended): streamlit_app.py's `get_prompt` succeeds exactly on the
categories `{food, travel, medical, finance, general}` and web_app.py's
exactly on `{travel, food}`; in both files an unsupported category makes
`rewrite_article` fail with the `ValueError` immediately, before any
remote call or retry. -/
theorem C5_amended :
    (∀ text cat : String, (StreamlitApp.get_prompt text cat).toOption.isSome = true ↔
      (cat = "food" ∨ cat = "travel" ∨ cat = "medical" ∨ cat = "finance" ∨
        cat = "general")) ∧
    (∀ text cat : String, (WebApp.get_prompt text cat).toOption.isSome = true ↔
      (cat = "travel" ∨ cat = "food")) ∧
    (∀ call jitter text cat e, StreamlitApp.get_prompt text cat = .error e →
      StreamlitApp.rewrite_article call jitter text cat = .error e) ∧
    (∀ call jitter text cat e, WebApp.get_prompt text cat = .error e →
      WebApp.rewrite_article call jitter text cat = .error e) := by
  refine ⟨?_, ?_, ?_, ?_⟩
  · intro text cat
    unfold StreamlitApp.get_prompt
    split_ifs with h1 h2 h3 h4 h5 <;> simp_all [Except.toOption]
  · intro text cat
    unfold WebApp.get_prompt
    split_ifs with h1 h2 <;> simp_all [Except.toOption]
  · intro call jitter text cat e h
    simp [StreamlitApp.rewrite_article, h]
  · intro call jitter text cat e h
    simp [WebApp.rewrite_article, h]

/-- C5 (witness): with an unsupported category the error from
`get_prompt` is what both `rewrite_article` functions return. -/
theorem C5_witness :
    StreamlitApp.rewrite_article (fun _ _ => .err) (fun _ => 0) "x" "poetry" =
      .error "Invalid article_type" ∧
    WebApp.rewrite_article (fun _ _ => .err) (fun _ => 0) "x" "poetry" =
      .error "Invalid article_type; choose \x27travel\x27 or \x27food\x27." :=
  ⟨C5_amended.2.2.1 (fun _ _ => .err) (fun _ => 0) "x" "poetry" _ rfl,
   C5_amended.2.2.2 (fun _ _ => .err) (fun _ => 0) "x" "poetry" _ rfl⟩

/-- C7: within a single run all archive entry filenames are pairwise
distinct: each filename pairs the (truncated) sanitised title with the
1-based position of the URL in the input list, and the embedded position
makes entries unique even when the sanitised stems coincide. -/
theorem C7_filenames_distinct (fetch : String → Option (String × String))
    (rw : String → Option String) (urls : List String) :
    (((RewritePro.pipeline fetch rw urls).1.map Prod.fst)).Pairwise (· ≠ ·) :=
  RewritePro.pipelineGo_pairwise urls 1

/-- C10: the sanitised title is truncated to at most 50 characters before
the 1-based index is appended: the stem length is at most 50, the
filename is the truncated stem plus `_<index>.txt`, and two titles whose
sanitised forms agree on the first 50 characters produce the same stem. -/
theorem C10_truncation : ∀ (idx : Nat) (title t1 t2 : String),
    (RewritePro.safeName title).length ≤ 50 ∧
    RewritePro.mkFilename idx title =
      RewritePro.safeName title ++ "_" ++ toString idx ++ ".txt" ∧
    (RewritePro.mkFilename idx title).length =
      (RewritePro.safeName title).length + (toString idx).length + 5 ∧
    ((RewritePro.sanitize t1).data.take 50 = (RewritePro.sanitize t2).data.take 50 →
      RewritePro.safeName t1 = RewritePro.safeName t2) := by
  intro idx title t1 t2
  refine ⟨?_, rfl, ?_, ?_⟩
  · show ((RewritePro.sanitize title).data.take 50).length ≤ 50
    simp [List.length_take]
  · simp only [RewritePro.mkFilename, String.length_append]
    have h1 : ("_" : String).length = 1 := rfl
    have h4 : (".txt" : String).length = 4 := rfl
    omega
  · intro h
    exact congrArg (fun l => (⟨l⟩ : String)) h

/-- C10 (witness): two titles agreeing on their first 50 sanitised
characters share the stem. -/
theorem C10_witness :
    RewritePro.safeName "AAAAAAAAAAAAAAAAAAAAAAAAAAAAAAAAAAAAAAAAAAAAAAAAAA B" =
      RewritePro.safeName "AAAAAAAAAAAAAAAAAAAAAAAAAAAAAAAAAAAAAAAAAAAAAAAAAA C" :=
  (C10_truncation 1 "t" "AAAAAAAAAAAAAAAAAAAAAAAAAAAAAAAAAAAAAAAAAAAAAAAAAA B"
    "AAAAAAAAAAAAAAAAAAAAAAAAAAAAAAAAAAAAAAAAAAAAAAAAAA C").2.2.2 (by decide)

/-- C2: in both files `rewrite_article` makes at most 3 remote-call
attempts, and in both files, whenever the first success happens at any
attempt `k ≤ 3` (in particular at the boundary `k = 3` after two
failures) the returned value is that response's content stripped of
leading and trailing whitespace, after exactly `k` calls. -/
theorem C2_retry_contract :
    (∀ call jitter text cat t,
      StreamlitApp.rewrite_article call jitter text cat = .ok t → t.calls ≤ 3) ∧
    (∀ call jitter text cat p k r, StreamlitApp.get_prompt text cat = .ok p →
      1 ≤ k → k ≤ 3 → (∀ j, 1 ≤ j → j < k → call p j = .err) → call p k = .ok r →
      (StreamlitApp.rewrite_article call jitter text cat).map
        (fun t => (t.result, t.calls)) = .ok (some (RewritePro.pyStrip r), k)) ∧
    (∀ call jitter text cat t,
      WebApp.rewrite_article call jitter text cat = .ok t → t.calls ≤ 3) ∧
    (∀ call jitter text cat p k r, WebApp.get_prompt text cat = .ok p →
      1 ≤ k → k ≤ 3 → (∀ j, 1 ≤ j → j < k → call p j = .err) → call p k = .ok r →
      (WebApp.rewrite_article call jitter text cat).map
        (fun t => (t.result, t.calls)) = .ok (some (RewritePro.pyStrip r), k)) := by
  refine ⟨?_, ?_, ?_, ?_⟩
  · intro call jitter text cat t h
    unfold StreamlitApp.rewrite_article at h
    cases hg : StreamlitApp.get_prompt text cat with
    | error e => rw [hg] at h; exact absurd h (by simp)
    | ok p =>
      rw [hg] at h
      simp only [Except.ok.injEq] at h
      subst h
      simpa using StreamlitApp.stRewriteLoop_calls_le (call p) jitter [1, 2, 3] 1
  · intro call jitter text cat p k r hg hk1 hk3 hfail hk
    unfold StreamlitApp.rewrite_article
    rw [hg]
    interval_cases k
    · simp [StreamlitApp.rewriteLoop, hk, Except.map]
    · have e1 : call p 1 = .err := hfail 1 (by omega) (by omega)
      simp [StreamlitApp.rewriteLoop, e1, hk, Except.map]
    · have e1 : call p 1 = .err := hfail 1 (by omega) (by omega)
      have e2 : call p 2 = .err := hfail 2 (by omega) (by omega)
      simp [StreamlitApp.rewriteLoop, e1, e2, hk, Except.map]
  · intro call jitter text cat t h
    unfold WebApp.rewrite_article at h
    cases hg : WebApp.get_prompt text cat with
    | error e => rw [hg] at h; exact absurd h (by simp)
    | ok p =>
      rw [hg] at h
      simp only [Except.ok.injEq] at h
      subst h
      simpa using WebApp.webRewriteLoop_calls_le (call p) jitter [1, 2, 3] 1
  · intro call jitter text cat p k r hg hk1 hk3 hfail hk
    unfold WebApp.rewrite_article
    rw [hg]
    interval_cases k
    · simp only [WebApp.rewriteLoop, hk, Except.map]
      split <;> simp
    · have e1 : call p 1 = .err := hfail 1 (by omega) (by omega)
      simp only [WebApp.rewriteLoop, e1, hk, Except.map]
      split <;> simp
    · have e1 : call p 1 = .err := hfail 1 (by omega) (by omega)
      have e2 : call p 2 = .err := hfail 2 (by omega) (by omega)
      simp only [WebApp.rewriteLoop, e1, e2, hk, Except.map]
      split <;> simp

/-- C2 (witness): in streamlit_app.py two failures followed by a success
on attempt 3 return the third response stripped after exactly 3 calls;
in web_app.py a failure followed by a success on attempt 2 returns the
second response stripped after exactly 2 calls. -/
theorem C2_witness :
    (StreamlitApp.rewrite_article (fun _ a => if a = 3 then .ok " hi " else .err)
      (fun _ => 0) "body" "food").map (fun t => (t.result, t.calls)) =
      .ok (some "hi", 3) ∧
    (WebApp.rewrite_article (fun _ a => if a = 2 then .ok " hi " else .err)
      (fun _ => 0) "body" "food").map (fun t => (t.result, t.calls)) =
      .ok (some "hi", 2) := by
  constructor
  · have h := C2_retry_contract.2.1 (fun _ a => if a = 3 then .ok " hi " else .err)
      (fun _ => 0) "body" "food"
      (StreamlitApp.core "body" ++ StreamlitApp.extraFood ++ StreamlitApp.ending) 3 " hi "
      rfl (by omega) (by omega) (fun j hj1 hj3 => by interval_cases j <;> rfl) rfl
    rw [h]
    have : RewritePro.pyStrip " hi " = "hi" := by decide
    rw [this]
  · have h := C2_retry_contract.2.2.2 (fun _ a => if a = 2 then .ok " hi " else .err)
      (fun _ => 0) "body" "food"
      (WebApp.foodPre ++ "body" ++ WebApp.indentTail) 2 " hi "
      rfl (by omega) (by omega) (fun j hj1 hj2 => by interval_cases j <;> rfl) rfl
    rw [h]
    have : RewritePro.pyStrip " hi " = "hi" := by decide
    rw [this]

/-- C3 (counterexample): the claim says every sleep is a delay before a
retry attempt.  When every attempt fails, `rewrite_article` of either
file issues 3 calls — hence at most 2 retries — yet sleeps 3 times
(durations 1, 2, 4 with jitter 0): the final sleep follows the last
failed attempt and precedes no retry. -/
theorem C3_counterexample :
    (StreamlitApp.rewrite_article (fun _ _ => .err) (fun _ => 0) "x" "food").map
      (fun t => (t.calls, t.sleeps)) = .ok (3, [1, 2, 4]) ∧
    (WebApp.rewrite_article (fun _ _ => .err) (fun _ => 0) "x" "food").map
      (fun t => (t.calls, t.sleeps)) = .ok (3, [1, 2, 4]) ∧
    ¬ ([(1 : ℚ), 2, 4].length ≤ 3 - 1) := by
  refine ⟨?_, ?_, by norm_num⟩
  · norm_num [StreamlitApp.rewrite_article, StreamlitApp.get_prompt,
      StreamlitApp.rewriteLoop, Except.map]
  · have hgp : WebApp.get_prompt "x" "food" =
        .ok (WebApp.foodPre ++ "x" ++ WebApp.indentTail) := rfl
    norm_num [WebApp.rewrite_article, hgp, WebApp.rewriteLoop, Except.map]

/-- C3 (amended): in both files every sleep follows a failed attempt
(one sleep per failure, including a final sleep after a third failure
that precedes no retry).  The sleeps are an initial segment of
`[1 + j₁, 2 + j₂, 4 + j₃]`: the base delay starts at 1 time unit and
doubles after each failed attempt, plus the per-attempt jitter; with
jitter in `[0, 1/2)` the i-th sleep lies in `[2^i, 2^i + 1/2)`. -/
theorem C3_amended :
    (∀ call jitter text cat t,
      StreamlitApp.rewrite_article call jitter text cat = .ok t →
      (t.sleeps = List.take (t.calls - if t.result.isSome then 1 else 0)
        [1 + jitter 1, 2 + jitter 2, 4 + jitter 3]) ∧
      ((∀ n, 0 ≤ jitter n ∧ jitter n < 1/2) →
        ∀ i, i < t.sleeps.length →
          (2 : ℚ) ^ i ≤ t.sleeps.getD i 0 ∧ t.sleeps.getD i 0 < 2 ^ i + 1/2)) ∧
    (∀ call jitter text cat t,
      WebApp.rewrite_article call jitter text cat = .ok t →
      (t.sleeps = List.take (t.calls - if t.result.isSome then 1 else 0)
        [1 + jitter 1, 2 + jitter 2, 4 + jitter 3]) ∧
      ((∀ n, 0 ≤ jitter n ∧ jitter n < 1/2) →
        ∀ i, i < t.sleeps.length →
          (2 : ℚ) ^ i ≤ t.sleeps.getD i 0 ∧ t.sleeps.getD i 0 < 2 ^ i + 1/2)) := by
  constructor
  intro call jitter text cat t h
  unfold StreamlitApp.rewrite_article at h
  cases hg : StreamlitApp.get_prompt text cat with
  | error e => rw [hg] at h; exact absurd h (by simp)
  | ok p =>
    rw [hg] at h
    simp only [Except.ok.injEq] at h
    subst h
    cases h1 : call p 1 with
    | ok c =>
      have ht : StreamlitApp.rewriteLoop (call p) jitter [1, 2, 3] 1 =
          ⟨some (RewritePro.pyStrip c), 1, []⟩ := by
        simp [StreamlitApp.rewriteLoop, h1]
      rw [ht]
      refine ⟨by norm_num, ?_⟩
      intro hj i hi
      simp at hi
    | err =>
      cases h2 : call p 2 with
      | ok c =>
        have ht : StreamlitApp.rewriteLoop (call p) jitter [1, 2, 3] 1 =
            ⟨some (RewritePro.pyStrip c), 2, [1 + jitter 1]⟩ := by
          simp [StreamlitApp.rewriteLoop, h1, h2]
        rw [ht]
        refine ⟨by norm_num, ?_⟩
        intro hj i hi
        simp only [List.length_cons, List.length_nil] at hi
        have h0 : i = 0 := by omega
        subst h0
        simp only [List.getD_cons_zero, pow_zero]
        have := hj 1
        constructor <;> linarith [this.1, this.2]
      | err =>
        cases h3 : call p 3 with
        | ok c =>
          have ht : StreamlitApp.rewriteLoop (call p) jitter [1, 2, 3] 1 =
              ⟨some (RewritePro.pyStrip c), 3, [1 + jitter 1, 2 + jitter 2]⟩ := by
            norm_num [StreamlitApp.rewriteLoop, h1, h2, h3]
          rw [ht]
          refine ⟨by norm_num, ?_⟩
          intro hj i hi
          simp only [List.length_cons, List.length_nil] at hi
          have h01 : i = 0 ∨ i = 1 := by omega
          have hjj1 := hj 1
          have hjj2 := hj 2
          rcases h01 with rfl | rfl
          · simp only [List.getD_cons_zero, pow_zero]
            constructor <;> linarith [hjj1.1, hjj1.2]
          · simp only [List.getD_cons_succ, List.getD_cons_zero, pow_one]
            constructor <;> linarith [hjj2.1, hjj2.2]
        | err =>
          have ht : StreamlitApp.rewriteLoop (call p) jitter [1, 2, 3] 1 =
              ⟨none, 3, [1 + jitter 1, 2 + jitter 2, 4 + jitter 3]⟩ := by
            norm_num [StreamlitApp.rewriteLoop, h1, h2, h3]
          rw [ht]
          refine ⟨by norm_num, ?_⟩
          intro hj i hi
          simp only [List.length_cons, List.length_nil] at hi
          have h012 : i = 0 ∨ i = 1 ∨ i = 2 := by omega
          have hjj1 := hj 1
          have hjj2 := hj 2
          have hjj3 := hj 3
          rcases h012 with rfl | rfl | rfl
          · simp only [List.getD_cons_zero, pow_zero]
            constructor <;> linarith [hjj1.1, hjj1.2]
          · simp only [List.getD_cons_succ, List.getD_cons_zero, pow_one]
            constructor <;> linarith [hjj2.1, hjj2.2]
          · simp only [List.getD_cons_succ, List.getD_cons_zero]
            norm_num
            constructor <;> linarith [hjj3.1, hjj3.2]

  intro call jitter text cat t h
  unfold WebApp.rewrite_article at h
  cases hg : WebApp.get_prompt text cat with
  | error e => rw [hg] at h; exact absurd h (by simp)
  | ok p =>
    rw [hg] at h
    simp only [Except.ok.injEq] at h
    subst h
    cases h1 : call p 1 with
    | ok c =>
      by_cases hw : 600 ≤ (RewritePro.pySplit (RewritePro.pyStrip c)).length ∧
          (RewritePro.pySplit (RewritePro.pyStrip c)).length ≤ 800
      · have ht : WebApp.rewriteLoop (call p) jitter [1, 2, 3] 1 =
            ⟨some (RewritePro.pyStrip c), 1, [], []⟩ := by
          simp [WebApp.rewriteLoop, h1, hw]
        rw [ht]
        refine ⟨by norm_num, ?_⟩
        intro hj i hi
        simp at hi
      · have ht : WebApp.rewriteLoop (call p) jitter [1, 2, 3] 1 =
            ⟨some (RewritePro.pyStrip c), 1, [],
              [(RewritePro.pySplit (RewritePro.pyStrip c)).length]⟩ := by
          simp [WebApp.rewriteLoop, h1, hw]
        rw [ht]
        refine ⟨by norm_num, ?_⟩
        intro hj i hi
        simp at hi
    | err =>
      cases h2 : call p 2 with
      | ok c =>
        by_cases hw : 600 ≤ (RewritePro.pySplit (RewritePro.pyStrip c)).length ∧
            (RewritePro.pySplit (RewritePro.pyStrip c)).length ≤ 800
        · have ht : WebApp.rewriteLoop (call p) jitter [1, 2, 3] 1 =
              ⟨some (RewritePro.pyStrip c), 2, [1 + jitter 1], []⟩ := by
            simp [WebApp.rewriteLoop, h1, h2, hw]
          rw [ht]
          refine ⟨by norm_num, ?_⟩
          intro hj i hi
          simp only [List.length_cons, List.length_nil] at hi
          have h0 : i = 0 := by omega
          subst h0
          simp only [List.getD_cons_zero, pow_zero]
          have := hj 1
          constructor <;> linarith [this.1, this.2]
        · have ht : WebApp.rewriteLoop (call p) jitter [1, 2, 3] 1 =
              ⟨some (RewritePro.pyStrip c), 2, [1 + jitter 1],
                [(RewritePro.pySplit (RewritePro.pyStrip c)).length]⟩ := by
            simp [WebApp.rewriteLoop, h1, h2, hw]
          rw [ht]
          refine ⟨by norm_num, ?_⟩
          intro hj i hi
          simp only [List.length_cons, List.length_nil] at hi
          have h0 : i = 0 := by omega
          subst h0
          simp only [List.getD_cons_zero, pow_zero]
          have := hj 1
          constructor <;> linarith [this.1, this.2]
      | err =>
        cases h3 : call p 3 with
        | ok c =>
          by_cases hw : 600 ≤ (RewritePro.pySplit (RewritePro.pyStrip c)).length ∧
              (RewritePro.pySplit (RewritePro.pyStrip c)).length ≤ 800
          · have ht : WebApp.rewriteLoop (call p) jitter [1, 2, 3] 1 =
                ⟨some (RewritePro.pyStrip c), 3, [1 + jitter 1, 2 + jitter 2], []⟩ := by
              norm_num [WebApp.rewriteLoop, h1, h2, h3, hw]
            rw [ht]
            refine ⟨by norm_num, ?_⟩
            intro hj i hi
            simp only [List.length_cons, List.length_nil] at hi
            have h01 : i = 0 ∨ i = 1 := by omega
            have hjj1 := hj 1
            have hjj2 := hj 2
            rcases h01 with rfl | rfl
            · simp only [List.getD_cons_zero, pow_zero]
              constructor <;> linarith [hjj1.1, hjj1.2]
            · simp only [List.getD_cons_succ, List.getD_cons_zero, pow_one]
              constructor <;> linarith [hjj2.1, hjj2.2]
          · have ht : WebApp.rewriteLoop (call p) jitter [1, 2, 3] 1 =
                ⟨some (RewritePro.pyStrip c), 3, [1 + jitter 1, 2 + jitter 2],
                  [(RewritePro.pySplit (RewritePro.pyStrip c)).length]⟩ := by
              norm_num [WebApp.rewriteLoop, h1, h2, h3, hw]
            rw [ht]
            refine ⟨by norm_num, ?_⟩
            intro hj i hi
            simp only [List.length_cons, List.length_nil] at hi
            have h01 : i = 0 ∨ i = 1 := by omega
            have hjj1 := hj 1
            have hjj2 := hj 2
            rcases h01 with rfl | rfl
            · simp only [List.getD_cons_zero, pow_zero]
              constructor <;> linarith [hjj1.1, hjj1.2]
            · simp only [List.getD_cons_succ, List.getD_cons_zero, pow_one]
              constructor <;> linarith [hjj2.1, hjj2.2]
        | err =>
          have ht : WebApp.rewriteLoop (call p) jitter [1, 2, 3] 1 =
              ⟨none, 3, [1 + jitter 1, 2 + jitter 2, 4 + jitter 3], []⟩ := by
            norm_num [WebApp.rewriteLoop, h1, h2, h3]
          rw [ht]
          refine ⟨by norm_num, ?_⟩
          intro hj i hi
          simp only [List.length_cons, List.length_nil] at hi
          have h012 : i = 0 ∨ i = 1 ∨ i = 2 := by omega
          have hjj1 := hj 1
          have hjj2 := hj 2
          have hjj3 := hj 3
          rcases h012 with rfl | rfl | rfl
          · simp only [List.getD_cons_zero, pow_zero]
            constructor <;> linarith [hjj1.1, hjj1.2]
          · simp only [List.getD_cons_succ, List.getD_cons_zero, pow_one]
            constructor <;> linarith [hjj2.1, hjj2.2]
          · simp only [List.getD_cons_succ, List.getD_cons_zero]
            norm_num
            constructor <;> linarith [hjj3.1, hjj3.2]

/-- C3 (witness): with an always-failing remote call and jitter 1/4 both
files make 3 calls and sleep 5/4, 9/4, 17/4; the first sleep lies in
`[1, 3/2)` and the second in `[2, 5/2)`. -/
theorem C3_witness :
    StreamlitApp.rewrite_article (fun _ _ => .err) (fun _ => 1/4) "x" "food" =
      .ok ⟨none, 3, [5/4, 9/4, 17/4]⟩ ∧
    WebApp.rewrite_article (fun _ _ => .err) (fun _ => 1/4) "x" "food" =
      .ok ⟨none, 3, [5/4, 9/4, 17/4], []⟩ ∧
    ((1 : ℚ) ≤ 5/4 ∧ (5 : ℚ)/4 < 1 + 1/2) ∧
    ((2 : ℚ) ≤ 9/4 ∧ (9 : ℚ)/4 < 2 + 1/2) := by
  have hrun : StreamlitApp.rewrite_article (fun _ _ => .err) (fun _ => 1/4) "x" "food" =
      .ok ⟨none, 3, [5/4, 9/4, 17/4]⟩ := by
    norm_num [StreamlitApp.rewrite_article, StreamlitApp.get_prompt,
      StreamlitApp.rewriteLoop]
  have hrunw : WebApp.rewrite_article (fun _ _ => .err) (fun _ => 1/4) "x" "food" =
      .ok ⟨none, 3, [5/4, 9/4, 17/4], []⟩ := by
    have hgp : WebApp.get_prompt "x" "food" =
        .ok (WebApp.foodPre ++ "x" ++ WebApp.indentTail) := rfl
    norm_num [WebApp.rewrite_article, hgp, WebApp.rewriteLoop]
  refine ⟨hrun, hrunw, ?_, ?_⟩
  · have h := (C3_amended.1 (fun _ _ => .err) (fun _ => 1/4) "x" "food" _ hrun).2
      (fun n => by norm_num) 0 (by norm_num)
    simpa using h
  · have h := (C3_amended.2 (fun _ _ => .err) (fun _ => 1/4) "x" "food" _ hrunw).2
      (fun n => by norm_num) 1 (by norm_num)
    simpa using h

/-- C4: when all 3 attempts raise, streamlit_app.py's `rewrite_article`
returns the failure sentinel `None` (no exception escapes), and the
pipeline loop skips such a document — no archive entry, no success
count — while another document in the same batch still succeeds. -/
theorem C4_all_fail_skipped :
    (∀ call jitter text cat p, StreamlitApp.get_prompt text cat = .ok p →
      call p 1 = .err → call p 2 = .err → call p 3 = .err →
      (StreamlitApp.rewrite_article call jitter text cat).map (fun t => t.result) =
        .ok none) ∧
    (∀ fetch rw u1 u2 e, RewritePro.processUrl fetch rw 1 u1 = none →
      RewritePro.processUrl fetch rw 2 u2 = some e →
      RewritePro.pipeline fetch rw [u1, u2] = ([e], 1)) := by
  constructor
  · intro call jitter text cat p hg e1 e2 e3
    unfold StreamlitApp.rewrite_article
    rw [hg]
    simp [StreamlitApp.rewriteLoop, e1, e2, e3, Except.map]
  · intro fetch rw u1 u2 e h1 h2
    simp [RewritePro.pipeline, RewritePro.pipelineGo, h1, h2]

/-- C4 (witness): an always-failing remote call yields the sentinel, and
in the batch `["a", "b"]` with `"a"` unfetchable only `"b"` produces an
entry, counted as the single success. -/
theorem C4_witness :
    (StreamlitApp.rewrite_article (fun _ _ => .err) (fun _ => 0) "t" "food").map
      (fun t => t.result) = .ok none ∧
    RewritePro.pipeline (fun u => if u = "b" then some ("txt", "T") else none)
      (fun _ => some "R") ["a", "b"] =
      ([("T_2.txt", "// T //\nSource: b\n\nR")], 1) :=
  ⟨C4_all_fail_skipped.1 (fun _ _ => .err) (fun _ => 0) "t" "food" _ rfl rfl rfl rfl,
   C4_all_fail_skipped.2 (fun u => if u = "b" then some ("txt", "T") else none)
     (fun _ => some "R") "a" "b" ("T_2.txt", "// T //\nSource: b\n\nR")
     (by decide) (by decide)⟩

/-- C6: the fetcher converts any exception of the article library into
the null pair (no error reaches the core); a URL with missing or empty
extracted text is skipped with no entry; and with an always-failing
fetcher the whole run produces zero entries and zero successes. -/
theorem C6_fetch_failure :
    (∀ net url e, net url = Except.error e →
      RewritePro.extract_text_from_url net url = none) ∧
    (∀ fetch rw idx url title, fetch url = some ("", title) →
      RewritePro.processUrl fetch rw idx url = none) ∧
    (∀ rw urls, RewritePro.pipeline (fun _ => none) rw urls = ([], 0)) := by
  refine ⟨?_, ?_, ?_⟩
  · intro net url e h
    simp [RewritePro.extract_text_from_url, h]
  · intro fetch rw idx url title h
    simp [RewritePro.processUrl, h]
  · intro rw urls
    exact RewritePro.pipelineGo_fetchfail rw urls 1

/-- C6 (witness): a raising article library yields the null pair, and an
empty extracted text is skipped. -/
theorem C6_witness :
    RewritePro.extract_text_from_url (fun _ => .error "boom") "http://u" = none ∧
    RewritePro.processUrl (fun _ => some ("", "T")) (fun _ => some "R") 1 "http://u" =
      none :=
  ⟨C6_fetch_failure.1 (fun _ => .error "boom") "http://u" "boom" rfl,
   C6_fetch_failure.2.1 (fun _ => some ("", "T")) (fun _ => some "R") 1 "http://u" "T" rfl⟩

/-- C8: every archive entry of a successfully rewritten document is named
`<sanitized-title>_<index>.txt` and contains the two header lines, a
blank line, and the rewritten text; on the spec's two-URL example where
only the first URL extracts (title "Title One"), the single entry is
`Title_One_1.txt` and the success count is 1 of 2. -/
theorem C8_entry_format :
    (∀ fetch rw idx url text title r, fetch url = some (text, title) → text ≠ "" →
      rw text = some r → r ≠ "" →
      RewritePro.processUrl fetch rw idx url =
        some (RewritePro.safeName title ++ "_" ++ toString idx ++ ".txt",
          "// " ++ title ++ " //\nSource: " ++ url ++ "\n\n" ++ r)) ∧
    RewritePro.pipeline
      (fun url => if url = "http://a.test/1" then some ("some text", "Title One") else none)
      (fun _ => some "Rewritten content") ["http://a.test/1", "http://a.test/2"] =
      ([("Title_One_1.txt",
          "// Title One //\nSource: http://a.test/1\n\nRewritten content")], 1) ∧
    (["http://a.test/1", "http://a.test/2"] : List String).length = 2 := by
  refine ⟨?_, by decide, rfl⟩
  intro fetch rw idx url text title r hf ht hr hw
  simp [RewritePro.processUrl, hf, ht, hr, hw, RewritePro.mkFilename, RewritePro.mkContent]

/-- C8 (witness): the archive entry produced for the example document. -/
theorem C8_witness :
    RewritePro.processUrl
      (fun url => if url = "http://a.test/1" then some ("some text", "Title One") else none)
      (fun _ => some "Rewritten content") 1 "http://a.test/1" =
      some ("Title_One_1.txt",
        "// Title One //\nSource: http://a.test/1\n\nRewritten content") := by
  have h := C8_entry_format.1
    (fun url => if url = "http://a.test/1" then some ("some text", "Title One") else none)
    (fun _ => some "Rewritten content") 1 "http://a.test/1" "some text" "Title One"
    "Rewritten content" (by decide) (by decide) rfl (by decide)
  exact h.trans (by decide)

/-- C9: when a remote call succeeds, web_app.py's `rewrite_article`
returns the stripped content after exactly one call and no sleep whether
or not the word count lies in the 600-800 band; the out-of-band case only
logs a warning. -/
theorem C9_wordcount_nonfatal : ∀ call jitter text cat p resp,
    WebApp.get_prompt text cat = .ok p → call p 1 = .ok resp →
    (WebApp.rewrite_article call jitter text cat).map
      (fun t => (t.result, t.calls, t.sleeps)) =
      .ok (some (RewritePro.pyStrip resp), 1, []) ∧
    (WebApp.rewrite_article call jitter text cat).map (fun t => t.warned) =
      .ok (if 600 ≤ (RewritePro.pySplit (RewritePro.pyStrip resp)).length ∧
          (RewritePro.pySplit (RewritePro.pyStrip resp)).length ≤ 800
        then [] else [(RewritePro.pySplit (RewritePro.pyStrip resp)).length]) := by
  intro call jitter text cat p resp hg hc
  unfold WebApp.rewrite_article
  rw [hg]
  constructor
  · simp only [WebApp.rewriteLoop, hc, Except.map]
    split <;> simp
  · simp only [WebApp.rewriteLoop, hc, Except.map]
    split <;> rename_i hw <;> simp [hw]

/-- C9 (witness): a 1-word response is returned stripped after one call
with no sleep, and its word count 1 is logged as the only warning. -/
theorem C9_witness :
    (WebApp.rewrite_article (fun _ _ => .ok " short ") (fun _ => 0) "x" "travel").map
      (fun t => (t.result, t.calls, t.sleeps)) = .ok (some "short", 1, []) ∧
    (WebApp.rewrite_article (fun _ _ => .ok " short ") (fun _ => 0) "x" "travel").map
      (fun t => t.warned) = .ok [1] := by
  have h := C9_wordcount_nonfatal (fun _ _ => .ok " short ") (fun _ => 0) "x" "travel"
    (WebApp.travelPre ++ "x" ++ WebApp.indentTail) " short " rfl rfl
  constructor
  · rw [h.1]
    rw [show RewritePro.pyStrip " short " = "short" from by decide]
  · rw [h.2]
    norm_num [show RewritePro.pySplit (RewritePro.pyStrip " short ") = ["short"] from
      by decide]
